/-
  Verification of the core logic of the `clap-version-flag` crate.

  The embedding models the crate's hex-colour parser (`parse_hex` in
  src/lib.rs) and the `ColorfulVersion` banner type together with its
  constructors, colour setters and renderers.  Strings handed to the
  parser are modelled as their UTF-8 byte sequences (`List Nat`), because
  the Rust code measures length and slices in bytes; slicing a `&str` at
  a byte position that is not a character boundary panics, so the model
  returns a dedicated `panicked` outcome there.
-/
import Mathlib

namespace ClapVersionFlag

/-- Outcome of running a fallible Rust function: it can panic, return an
    error, or return a value. -/
inductive RustResult (ε α : Type) where
  | panicked : RustResult ε α
  | err (e : ε) : RustResult ε α
  | ok (a : α) : RustResult ε α
deriving DecidableEq, Repr

namespace RustResult

def isOk {ε α : Type} : RustResult ε α → Bool
  | .ok _ => true
  | _ => false

def isErr {ε α : Type} : RustResult ε α → Bool
  | .err _ => true
  | _ => false

end RustResult

/-- `VersionError` from src/error.rs.  `invalidHexColor` carries the
    post-strip hex string (as UTF-8 bytes); `ioError` models the wrapped
    I/O variant, which the parser never produces. -/
inductive VersionError where
  | invalidHexColor (hex : List Nat) : VersionError
  | ioError : VersionError
deriving DecidableEq, Repr

/-- Value of a byte as a base-16 digit, following Rust's
    `char::to_digit(16)` on a one-byte char: `0`-`9`, `a`-`f`, `A`-`F`. -/
def hexDigit? (b : Nat) : Option Nat :=
  if 48 ≤ b ∧ b ≤ 57 then some (b - 48)
  else if 97 ≤ b ∧ b ≤ 102 then some (b - 87)
  else if 65 ≤ b ∧ b ≤ 70 then some (b - 55)
  else none

/-- Digit-accumulation loop of Rust's `u8::from_str_radix(_, 16)`:
    consumes base-16 digits with a checked multiply-add that fails
    (`PosOverflow`) past 255. -/
def accumHex16 : List Nat → Nat → Option Nat
  | [], acc => some acc
  | b :: rest, acc =>
    match hexDigit? b with
    | none => none
    | some d =>
      if acc * 16 + d ≤ 255 then accumHex16 rest (acc * 16 + d) else none

/-- Rust's `u8::from_str_radix(s, 16)` on the byte string `s`: an empty
    string fails, an optional leading `'+'` (byte 43) is allowed when
    followed by at least one character, a leading `'-'` is not a digit
    for an unsigned type, and the rest must be base-16 digits whose value
    fits in a `u8`.  `none` stands for any `ParseIntError`. -/
def fromStrRadix16 (s : List Nat) : Option Nat :=
  match s with
  | [] => none
  | b :: rest =>
    if b = 43 ∧ rest ≠ [] then accumHex16 rest 0
    else accumHex16 s 0

/-- Rust's `str::is_char_boundary` on the underlying UTF-8 bytes:
    position 0 and the end are boundaries, otherwise the byte at the
    position must not be a continuation byte (`0x80..0xBF`). -/
def isCharBoundary (bs : List Nat) (i : Nat) : Bool :=
  if i = 0 then true
  else
    match bs[i]? with
    | some b => decide (b < 128 ∨ 192 ≤ b)
    | none => decide (i = bs.length)

/-- Rust's byte slicing `&s[a..b]` on a `&str`: yields the bytes of the
    slice, or `none` (a panic) when the range is invalid or an endpoint
    is not a character boundary. -/
def strSlice (bs : List Nat) (a b : Nat) : Option (List Nat) :=
  if a ≤ b ∧ isCharBoundary bs a ∧ isCharBoundary bs b then
    some ((bs.drop a).take (b - a))
  else none

/-- The `_ => Err(VersionError::invalid_hex(hex))` and `map_err` targets
    of `parse_hex`. -/
def invalidHex (hex : List Nat) : VersionError := .invalidHexColor hex

/-- Body of `parse_hex` after `let hex = hex.trim_start_matches('#')`
    (src/lib.rs:370-391): match on the byte length; length 6 parses the
    three 2-byte groups, length 3 duplicates each 1-byte slice before
    parsing, anything else is `InvalidHexColor`.  Slicing goes through
    `strSlice`, so a non-boundary endpoint is a panic. -/
def parseHexStripped (hex : List Nat) : RustResult VersionError (Nat × Nat × Nat) :=
  if hex.length = 6 then
    match strSlice hex 0 2 with
    | none => .panicked
    | some s1 =>
      match fromStrRadix16 s1 with
      | none => .err (invalidHex hex)
      | some r =>
        match strSlice hex 2 4 with
        | none => .panicked
        | some s2 =>
          match fromStrRadix16 s2 with
          | none => .err (invalidHex hex)
          | some g =>
            match strSlice hex 4 6 with
            | none => .panicked
            | some s3 =>
              match fromStrRadix16 s3 with
              | none => .err (invalidHex hex)
              | some b => .ok (r, g, b)
  else if hex.length = 3 then
    match strSlice hex 0 1 with
    | none => .panicked
    | some s1 =>
      match fromStrRadix16 (s1 ++ s1) with
      | none => .err (invalidHex hex)
      | some r =>
        match strSlice hex 1 2 with
        | none => .panicked
        | some s2 =>
          match fromStrRadix16 (s2 ++ s2) with
          | none => .err (invalidHex hex)
          | some g =>
            match strSlice hex 2 3 with
            | none => .panicked
            | some s3 =>
              match fromStrRadix16 (s3 ++ s3) with
              | none => .err (invalidHex hex)
              | some b => .ok (r, g, b)
  else .err (invalidHex hex)

/-- `parse_hex` from src/lib.rs:367-392.  `hex.trim_start_matches('#')`
    removes every leading `'#'` (byte 35). -/
def parse_hex (input : List Nat) : RustResult VersionError (Nat × Nat × Nat) :=
  parseHexStripped (input.dropWhile (fun b => b = 35))

/-- UTF-8 bytes of a Lean string, as naturals; used to write the inputs
    of the concrete test cases the way the Rust tests write them. -/
def strBytes (s : String) : List Nat :=
  (s.data.map (fun c => (String.utf8EncodeChar c).map (fun b => b.toNat))).flatten

/-- Byte of the base-16 digit `d` (`d < 16`), upper- or lower-case. -/
def hexDigitByte (upper : Bool) (d : Nat) : Nat :=
  if d < 10 then 48 + d else (if upper then 55 else 87) + d

/-- Modelled from the spec: "formatting as 6-digit hex" in the round-trip
    property.  The repository has no hex formatter of its own, so the
    6-digit rendering of a byte triple is taken from the spec's words;
    `upper` picks the letter case, which the parser accepts either way. -/
def toHex6 (upper : Bool) (r g b : Nat) : List Nat :=
  [hexDigitByte upper (r / 16), hexDigitByte upper (r % 16),
   hexDigitByte upper (g / 16), hexDigitByte upper (g % 16),
   hexDigitByte upper (b / 16), hexDigitByte upper (b % 16)]

/-- The `Colors` struct from src/lib.rs:63-69: four RGB triples. -/
structure Colors where
  name_fg : Nat × Nat × Nat
  name_bg : Nat × Nat × Nat
  version_color : Nat × Nat × Nat
  author_color : Nat × Nat × Nat
deriving DecidableEq, Repr

/-- `impl Default for Colors` (src/lib.rs:71-84). -/
def Colors.defaultColors : Colors :=
  { name_fg := (255, 255, 255)
    name_bg := (170, 0, 255)
    version_color := (255, 255, 0)
    author_color := (0, 255, 255) }

/-- The `ColorfulVersion` struct from src/lib.rs:56-61.  The Rust
    accessor methods `package_name()`, `version()` and `author()` return
    references to the fields, so the field projections model them. -/
structure ColorfulVersion where
  package_name : String
  version : String
  author : String
  colors : Colors
deriving DecidableEq, Repr

/-- `ColorfulVersion::new` (src/lib.rs:97-108): stores the three strings
    and the default colour set; it cannot fail. -/
def ColorfulVersion.new (package_name version author : String) : ColorfulVersion :=
  { package_name := package_name
    version := version
    author := author
    colors := Colors.defaultColors }

/-- `ColorfulVersion::with_hex_colors` (src/lib.rs:129-141): parses the
    four hex strings in order, assigning each field as its parse
    succeeds; `?` propagates the first failure, and a panic inside
    `parse_hex` propagates as a panic.  The struct is taken by value
    (`mut self`), so on the failure paths the partially-updated value is
    dropped and only the error escapes. -/
def ColorfulVersion.with_hex_colors (cv : ColorfulVersion)
    (name_fg name_bg version author : List Nat) :
    RustResult VersionError ColorfulVersion :=
  match parse_hex name_fg with
  | .panicked => .panicked
  | .err e => .err e
  | .ok c1 =>
    let cv := { cv with colors := { cv.colors with name_fg := c1 } }
    match parse_hex name_bg with
    | .panicked => .panicked
    | .err e => .err e
    | .ok c2 =>
      let cv := { cv with colors := { cv.colors with name_bg := c2 } }
      match parse_hex version with
      | .panicked => .panicked
      | .err e => .err e
      | .ok c3 =>
        let cv := { cv with colors := { cv.colors with version_color := c3 } }
        match parse_hex author with
        | .panicked => .panicked
        | .err e => .err e
        | .ok c4 =>
          .ok { cv with colors := { cv.colors with author_color := c4 } }

/-- `ColorfulVersion::as_plain_string` (src/lib.rs:231-233):
    `format!("{} v{} by {}", ...)`. -/
def ColorfulVersion.as_plain_string (cv : ColorfulVersion) : String :=
  cv.package_name ++ " v" ++ cv.version ++ " by " ++ cv.author

/-- The `fmt::Display` implementation (src/lib.rs:341-349): writes
    `"{} v{} by {}"` with the same three fields. -/
def ColorfulVersion.displayString (cv : ColorfulVersion) : String :=
  cv.package_name ++ " v" ++ cv.version ++ " by " ++ cv.author

/-- Modelled from the `colored` crate (an external dependency, not part
    of this repository): `s.truecolor(r,g,b)` rendered to a string wraps
    `s` in an ANSI truecolor foreground sequence and a reset, when
    colouring is enabled; when the crate decides not to colourize
    (non-tty, NO_COLOR), the text is rendered unchanged. -/
def truecolorFg (colorize : Bool) (c : Nat × Nat × Nat) (s : String) : String :=
  if colorize then
    "\x1b[38;2;" ++ toString c.1 ++ ";" ++ toString c.2.1 ++ ";" ++
      toString c.2.2 ++ "m" ++ s ++ "\x1b[0m"
  else s

/-- Modelled from the `colored` crate: `s.truecolor(..).on_truecolor(..)`
    rendered to a string wraps `s` in one escape sequence carrying both
    the foreground and background truecolor parameters, then a reset;
    unchanged when colouring is disabled. -/
def truecolorFgBg (colorize : Bool) (fg bg : Nat × Nat × Nat) (s : String) : String :=
  if colorize then
    "\x1b[38;2;" ++ toString fg.1 ++ ";" ++ toString fg.2.1 ++ ";" ++
      toString fg.2.2 ++ ";48;2;" ++ toString bg.1 ++ ";" ++ toString bg.2.1 ++
      ";" ++ toString bg.2.2 ++ "m" ++ s ++ "\x1b[0m"
  else s

/-- `ColorfulVersion::to_colored_string` (src/lib.rs:247-272):
    `format!("{}{}{}", name-part, " v{version}"-part, " by {author}"-part)`
    with the name coloured by `name_fg` on `name_bg`, the version part by
    `version_color` and the author part by `author_color`.  The
    `colorize` flag stands for the `colored` crate's global
    should-colorize decision. -/
def ColorfulVersion.to_colored_string (cv : ColorfulVersion) (colorize : Bool) : String :=
  truecolorFgBg colorize cv.colors.name_fg cv.colors.name_bg cv.package_name ++
    truecolorFg colorize cv.colors.version_color (" v" ++ cv.version) ++
    truecolorFg colorize cv.colors.author_color (" by " ++ cv.author)

end ClapVersionFlag



namespace ClapVersionFlag

/- Helper lemmas about the hex parser. -/

lemma hexDigit?_bounds {b d : Nat} (h : hexDigit? b = some d) :
    48 ≤ b ∧ b < 128 ∧ d < 16 := by
  unfold hexDigit? at h
  split_ifs at h <;> obtain rfl := Option.some.inj h <;> omega

lemma hexDigit?_hexDigitByte (u : Bool) {d : Nat} (hd : d < 16) :
    hexDigit? (hexDigitByte u d) = some d := by
  unfold hexDigitByte hexDigit?
  cases u <;> split_ifs <;> first | (congr 1; omega) | omega

lemma accumHex16_cons (b : Nat) (rest : List Nat) (acc : Nat) :
    accumHex16 (b :: rest) acc =
      (hexDigit? b).bind
        (fun d => if acc * 16 + d ≤ 255 then accumHex16 rest (acc * 16 + d) else none) := by
  cases h : hexDigit? b with
  | none => simp only [accumHex16, h, Option.none_bind]
  | some d => simp only [accumHex16, h, Option.some_bind]

lemma fromStrRadix16_pair_eq (x y : Nat) :
    fromStrRadix16 [x, y] =
      if x = 43 then hexDigit? y
      else
        match hexDigit? x with
        | none => none
        | some dx =>
          match hexDigit? y with
          | none => none
          | some dy => some (16 * dx + dy) := by
  simp only [fromStrRadix16]
  by_cases hx : x = 43
  · subst hx
    rw [if_pos ⟨rfl, by simp⟩, if_pos rfl]
    cases hy : hexDigit? y with
    | none => rw [accumHex16_cons, hy]; rfl
    | some dy =>
      obtain ⟨-, -, hdy⟩ := hexDigit?_bounds hy
      rw [accumHex16_cons, hy, Option.some_bind, if_pos (by omega)]
      simp only [accumHex16]
      congr 1
      omega
  · rw [if_neg (by rintro ⟨rfl, -⟩; exact hx rfl), if_neg hx]
    cases hdx : hexDigit? x with
    | none => rw [accumHex16_cons, hdx]; rfl
    | some dx =>
      obtain ⟨-, -, hx16⟩ := hexDigit?_bounds hdx
      rw [accumHex16_cons, hdx, Option.some_bind, if_pos (by omega)]
      cases hdy : hexDigit? y with
      | none => rw [accumHex16_cons, hdy]; rfl
      | some dy =>
        obtain ⟨-, -, hy16⟩ := hexDigit?_bounds hdy
        rw [accumHex16_cons, hdy, Option.some_bind, if_pos (by omega)]
        simp only [accumHex16]
        congr 1
        omega

lemma fromStrRadix16_two {x y dx dy : Nat}
    (hx : hexDigit? x = some dx) (hy : hexDigit? y = some dy) :
    fromStrRadix16 [x, y] = some (16 * dx + dy) := by
  obtain ⟨hx1, -, -⟩ := hexDigit?_bounds hx
  rw [fromStrRadix16_pair_eq, if_neg (by omega), hx, hy]

lemma fromStrRadix16_dup_eq (b : Nat) :
    fromStrRadix16 [b, b] = (hexDigit? b).map (fun d => 17 * d) := by
  rw [fromStrRadix16_pair_eq]
  by_cases hb : b = 43
  · subst hb
    rw [if_pos rfl]
    decide
  · rw [if_neg hb]
    cases h : hexDigit? b with
    | none => rfl
    | some d =>
      simp only [Option.map_some']
      congr 1
      omega

end ClapVersionFlag

namespace ClapVersionFlag

lemma dropWhile35_cons {b0 : Nat} (l : List Nat) (h : b0 ≠ 35) :
    List.dropWhile (fun b => b = 35) (b0 :: l) = b0 :: l := by
  simp [List.dropWhile_cons, h]

lemma parse_hex_cons_35 (l : List Nat) : parse_hex (35 :: l) = parse_hex l := rfl

lemma parse_hex_no_hash {b0 : Nat} (l : List Nat) (h : b0 ≠ 35) :
    parse_hex (b0 :: l) = parseHexStripped (b0 :: l) := by
  unfold parse_hex
  rw [dropWhile35_cons l h]

lemma parseHexStripped_other (l : List Nat) (h3 : l.length ≠ 3) (h6 : l.length ≠ 6) :
    parseHexStripped l = .err (invalidHex l) := by
  unfold parseHexStripped
  rw [if_neg h6, if_neg h3]

lemma parse_six_eval (b0 b1 b2 b3 b4 b5 : Nat)
    (h2 : b2 < 128 ∨ 192 ≤ b2) (h4 : b4 < 128 ∨ 192 ≤ b4) :
    parseHexStripped [b0, b1, b2, b3, b4, b5] =
      match fromStrRadix16 [b0, b1] with
      | none => .err (invalidHex [b0, b1, b2, b3, b4, b5])
      | some r =>
        match fromStrRadix16 [b2, b3] with
        | none => .err (invalidHex [b0, b1, b2, b3, b4, b5])
        | some g =>
          match fromStrRadix16 [b4, b5] with
          | none => .err (invalidHex [b0, b1, b2, b3, b4, b5])
          | some bb => .ok (r, g, bb) := by
  have e2 : isCharBoundary [b0, b1, b2, b3, b4, b5] 2 = true := decide_eq_true h2
  have e4 : isCharBoundary [b0, b1, b2, b3, b4, b5] 4 = true := decide_eq_true h4
  have s1 : strSlice [b0, b1, b2, b3, b4, b5] 0 2 = some [b0, b1] := by
    unfold strSlice
    rw [if_pos ⟨by omega, rfl, e2⟩]
    rfl
  have s2 : strSlice [b0, b1, b2, b3, b4, b5] 2 4 = some [b2, b3] := by
    unfold strSlice
    rw [if_pos ⟨by omega, e2, e4⟩]
    rfl
  have s3 : strSlice [b0, b1, b2, b3, b4, b5] 4 6 = some [b4, b5] := by
    unfold strSlice
    rw [if_pos ⟨by omega, e4, rfl⟩]
    rfl
  unfold parseHexStripped
  rw [if_pos (show ([b0, b1, b2, b3, b4, b5] : List Nat).length = 6 from rfl)]
  simp only [s1]
  cases fromStrRadix16 [b0, b1] with
  | none => rfl
  | some r =>
    simp only [s2]
    cases fromStrRadix16 [b2, b3] with
    | none => rfl
    | some g =>
      simp only [s3]

lemma parse_three_eval (b0 b1 b2 : Nat)
    (h1 : b1 < 128 ∨ 192 ≤ b1) (h2 : b2 < 128 ∨ 192 ≤ b2) :
    parseHexStripped [b0, b1, b2] =
      match fromStrRadix16 [b0, b0] with
      | none => .err (invalidHex [b0, b1, b2])
      | some r =>
        match fromStrRadix16 [b1, b1] with
        | none => .err (invalidHex [b0, b1, b2])
        | some g =>
          match fromStrRadix16 [b2, b2] with
          | none => .err (invalidHex [b0, b1, b2])
          | some bb => .ok (r, g, bb) := by
  have e1 : isCharBoundary [b0, b1, b2] 1 = true := decide_eq_true h1
  have e2 : isCharBoundary [b0, b1, b2] 2 = true := decide_eq_true h2
  have s1 : strSlice [b0, b1, b2] 0 1 = some [b0] := by
    unfold strSlice
    rw [if_pos ⟨by omega, rfl, e1⟩]
    rfl
  have s2 : strSlice [b0, b1, b2] 1 2 = some [b1] := by
    unfold strSlice
    rw [if_pos ⟨by omega, e1, e2⟩]
    rfl
  have s3 : strSlice [b0, b1, b2] 2 3 = some [b2] := by
    unfold strSlice
    rw [if_pos ⟨by omega, e2, rfl⟩]
    rfl
  unfold parseHexStripped
  rw [if_neg (show ¬([b0, b1, b2] : List Nat).length = 6 by simp),
    if_pos (show ([b0, b1, b2] : List Nat).length = 3 from rfl)]
  simp only [s1, List.cons_append, List.nil_append]
  cases fromStrRadix16 [b0, b0] with
  | none => rfl
  | some r =>
    simp only [s2, List.cons_append, List.nil_append]
    cases fromStrRadix16 [b1, b1] with
    | none => rfl
    | some g =>
      simp only [s3, List.cons_append, List.nil_append]

end ClapVersionFlag

namespace ClapVersionFlag

lemma parse_three_ok_iff (b0 b1 b2 : Nat) (t : Nat × Nat × Nat) :
    parseHexStripped [b0, b1, b2] = .ok t ↔
      ∃ d0 d1 d2, hexDigit? b0 = some d0 ∧ hexDigit? b1 = some d1 ∧
        hexDigit? b2 = some d2 ∧ t = (17 * d0, 17 * d1, 17 * d2) := by
  constructor
  · intro h
    by_cases hB1 : b1 < 128 ∨ 192 ≤ b1
    · by_cases hB2 : b2 < 128 ∨ 192 ≤ b2
      · rw [parse_three_eval b0 b1 b2 hB1 hB2, fromStrRadix16_dup_eq,
          fromStrRadix16_dup_eq, fromStrRadix16_dup_eq] at h
        cases h0 : hexDigit? b0 with
        | none => rw [h0] at h; exact absurd h (by simp)
        | some d0 =>
          rw [h0] at h
          simp only [Option.map_some'] at h
          cases h1 : hexDigit? b1 with
          | none => rw [h1] at h; exact absurd h (by simp)
          | some d1 =>
            rw [h1] at h
            simp only [Option.map_some'] at h
            cases h2 : hexDigit? b2 with
            | none => rw [h2] at h; exact absurd h (by simp)
            | some d2 =>
              rw [h2] at h
              simp only [Option.map_some'] at h
              exact ⟨d0, d1, d2, rfl, rfl, rfl, (RustResult.ok.inj h).symm⟩
      · exfalso
        have e1 : isCharBoundary [b0, b1, b2] 1 = true := decide_eq_true hB1
        have e2 : isCharBoundary [b0, b1, b2] 2 = false := decide_eq_false hB2
        have s1 : strSlice [b0, b1, b2] 0 1 = some [b0] := by
          unfold strSlice
          rw [if_pos ⟨by omega, rfl, e1⟩]
          rfl
        have s2 : strSlice [b0, b1, b2] 1 2 = none := by
          unfold strSlice
          rw [if_neg]
          rintro ⟨-, -, hb⟩
          rw [e2] at hb
          exact Bool.false_ne_true hb
        unfold parseHexStripped at h
        rw [if_neg (show ¬([b0, b1, b2] : List Nat).length = 6 by simp),
          if_pos (show ([b0, b1, b2] : List Nat).length = 3 from rfl)] at h
        simp only [s1, List.cons_append, List.nil_append] at h
        cases hp : fromStrRadix16 [b0, b0] with
        | none => rw [hp] at h; exact absurd h (by simp)
        | some r =>
          rw [hp] at h
          simp only [s2] at h
          exact absurd h (by simp)
    · exfalso
      have e1 : isCharBoundary [b0, b1, b2] 1 = false := decide_eq_false hB1
      have s1 : strSlice [b0, b1, b2] 0 1 = none := by
        unfold strSlice
        rw [if_neg]
        rintro ⟨-, -, hb⟩
        rw [e1] at hb
        exact Bool.false_ne_true hb
      unfold parseHexStripped at h
      rw [if_neg (show ¬([b0, b1, b2] : List Nat).length = 6 by simp),
        if_pos (show ([b0, b1, b2] : List Nat).length = 3 from rfl)] at h
      simp only [s1] at h
      exact absurd h (by simp)
  · rintro ⟨d0, d1, d2, h0, h1, h2, rfl⟩
    have hb1 := (hexDigit?_bounds h1).2.1
    have hb2 := (hexDigit?_bounds h2).2.1
    rw [parse_three_eval b0 b1 b2 (Or.inl hb1) (Or.inl hb2), fromStrRadix16_dup_eq,
      fromStrRadix16_dup_eq, fromStrRadix16_dup_eq, h0, h1, h2]
    simp only [Option.map_some']

lemma with_hex_colors_eq (cv : ColorfulVersion) (a1 a2 a3 a4 : List Nat) :
    cv.with_hex_colors a1 a2 a3 a4 =
      match parse_hex a1 with
      | .panicked => .panicked
      | .err e => .err e
      | .ok c1 =>
        match parse_hex a2 with
        | .panicked => .panicked
        | .err e => .err e
        | .ok c2 =>
          match parse_hex a3 with
          | .panicked => .panicked
          | .err e => .err e
          | .ok c3 =>
            match parse_hex a4 with
            | .panicked => .panicked
            | .err e => .err e
            | .ok c4 =>
              .ok { package_name := cv.package_name, version := cv.version,
                    author := cv.author,
                    colors := { name_fg := c1, name_bg := c2,
                                version_color := c3, author_color := c4 } } := by
  unfold ColorfulVersion.with_hex_colors
  cases parse_hex a1 <;> rfl

end ClapVersionFlag

namespace ClapVersionFlag

lemma truecolorFg_length (colorize : Bool) (c : Nat × Nat × Nat) (s : String) :
    s.length ≤ (truecolorFg colorize c s).length := by
  unfold truecolorFg
  split
  · simp only [String.length_append]
    omega
  · exact le_refl _

lemma truecolorFgBg_length (colorize : Bool) (fg bg : Nat × Nat × Nat) (s : String) :
    s.length ≤ (truecolorFgBg colorize fg bg s).length := by
  unfold truecolorFgBg
  split
  · simp only [String.length_append]
    omega
  · exact le_refl _

lemma string_length_zero {s : String} (h : s.length = 0) : s = "" := by
  cases s with
  | mk data =>
    cases data with
    | nil => rfl
    | cons c cs => simp [String.length] at h

end ClapVersionFlag

namespace ClapVersionFlag

/-- C1: the claim states that `parse_hex` returns Ok exactly when the
    post-'#'-strip remainder has length 3 or 6 and consists only of
    hexadecimal digits, failing with `InvalidHexColor` otherwise.  The
    code disagrees: `u8::from_str_radix` accepts an optional leading '+'
    in each two-character group, so the non-hexadecimal input "+00000"
    (bytes [43,48,48,48,48,48], length 6, containing '+') parses
    successfully to (0,0,0) instead of failing. -/
theorem parse_hex_accepts_plus_sign :
    parse_hex (strBytes "+00000") = .ok (0, 0, 0) := by decide

/-- C2 counterexample: the claim states that `parse_hex("##F00")` fails
    with `InvalidHexColor`; in the code `trim_start_matches('#')`
    removes every leading '#', so the call succeeds with (255,0,0). -/
theorem parse_hex_double_hash_succeeds :
    parse_hex (strBytes "##F00") = .ok (255, 0, 0) := by decide

/-- C2 (amended): `parse_hex` strips every leading '#' (byte 35) before
    checking the length, so prepending a '#' never changes the result,
    and "##F00" parses as "F00", succeeding with (255,0,0). -/
theorem parse_hex_strips_all_hashes :
    (∀ bs : List Nat, parse_hex (35 :: bs) = parse_hex bs) ∧
    parse_hex (strBytes "##F00") = .ok (255, 0, 0) :=
  ⟨parse_hex_cons_35, by decide⟩

/-- C3: the claim states that `parse_hex` is total and never panics, its
    byte slicing never faulting.  The code disagrees: on "éa" (UTF-8
    bytes [195,169,97], post-strip byte length 3) the slice `&hex[0..1]`
    ends inside the two-byte character 'é', which panics in Rust instead
    of returning the claimed `InvalidHexColor` error. -/
theorem parse_hex_panics_on_multibyte :
    parse_hex (strBytes "éa") = .panicked := by decide

end ClapVersionFlag

namespace ClapVersionFlag

/-- C4: atomicity of `with_hex_colors`.  Any banner it returns carries
    exactly the four freshly parsed colours with the strings unchanged —
    never a partial update — and when any of the four arguments fails to
    parse, no banner is returned at all (the moved-in `self` is dropped,
    so the caller retains no partially-updated value). -/
theorem with_hex_colors_atomic (cv : ColorfulVersion) (a1 a2 a3 a4 : List Nat) :
    (∀ b, cv.with_hex_colors a1 a2 a3 a4 = .ok b →
      b.package_name = cv.package_name ∧ b.version = cv.version ∧
        b.author = cv.author ∧
        parse_hex a1 = .ok b.colors.name_fg ∧
        parse_hex a2 = .ok b.colors.name_bg ∧
        parse_hex a3 = .ok b.colors.version_color ∧
        parse_hex a4 = .ok b.colors.author_color) ∧
    (((parse_hex a1).isErr = true ∨ (parse_hex a2).isErr = true ∨
        (parse_hex a3).isErr = true ∨ (parse_hex a4).isErr = true) →
      (cv.with_hex_colors a1 a2 a3 a4).isOk = false) := by
  rw [with_hex_colors_eq]
  constructor
  · intro b hb
    cases h1 : parse_hex a1 with
    | panicked => simp only [h1] at hb; exact RustResult.noConfusion hb
    | err e => simp only [h1] at hb; exact RustResult.noConfusion hb
    | ok c1 =>
      simp only [h1] at hb
      cases h2 : parse_hex a2 with
      | panicked => simp only [h2] at hb; exact RustResult.noConfusion hb
      | err e => simp only [h2] at hb; exact RustResult.noConfusion hb
      | ok c2 =>
        simp only [h2] at hb
        cases h3 : parse_hex a3 with
        | panicked => simp only [h3] at hb; exact RustResult.noConfusion hb
        | err e => simp only [h3] at hb; exact RustResult.noConfusion hb
        | ok c3 =>
          simp only [h3] at hb
          cases h4 : parse_hex a4 with
          | panicked => simp only [h4] at hb; exact RustResult.noConfusion hb
          | err e => simp only [h4] at hb; exact RustResult.noConfusion hb
          | ok c4 =>
            simp only [h4] at hb
            obtain rfl := RustResult.ok.inj hb
            exact ⟨rfl, rfl, rfl, rfl, rfl, rfl, rfl⟩
  · intro h
    cases h1 : parse_hex a1 with
    | panicked => simp only [h1]; rfl
    | err e => simp only [h1]; rfl
    | ok c1 =>
      simp only [h1, RustResult.isErr] at h ⊢
      cases h2 : parse_hex a2 with
      | panicked => simp only [h2]; rfl
      | err e => simp only [h2]; rfl
      | ok c2 =>
        simp only [h2, RustResult.isErr] at h ⊢
        cases h3 : parse_hex a3 with
        | panicked => simp only [h3]; rfl
        | err e => simp only [h3]; rfl
        | ok c3 =>
          simp only [h3, RustResult.isErr] at h ⊢
          cases h4 : parse_hex a4 with
          | panicked => simp only [h4]; rfl
          | err e => simp only [h4]; rfl
          | ok c4 =>
            simp only [h4, RustResult.isErr] at h
            rcases h with h | h | h | h <;> exact Bool.noConfusion h

/-- C4 witness: a fully successful override returns the completely
    updated banner, and an override whose second argument is invalid
    returns no banner. -/
theorem with_hex_colors_atomic_witness :
    parse_hex (strBytes "#F00") =
      .ok ((ColorfulVersion.mk "testapp" "1.2.3" "Test Author"
        (Colors.mk (255, 0, 0) (0, 255, 0) (0, 0, 255) (255, 255, 0))).colors.name_fg) ∧
    ((ColorfulVersion.new "testapp" "1.2.3" "Test Author").with_hex_colors
      (strBytes "#F00") (strBytes "zzz") (strBytes "#00F") (strBytes "#FF0")).isOk = false := by
  constructor
  · exact ((with_hex_colors_atomic (ColorfulVersion.new "testapp" "1.2.3" "Test Author")
      (strBytes "#F00") (strBytes "#0F0") (strBytes "#00F") (strBytes "#FF0")).1
      (ColorfulVersion.mk "testapp" "1.2.3" "Test Author"
        (Colors.mk (255, 0, 0) (0, 255, 0) (0, 0, 255) (255, 255, 0)))
      (by decide)).2.2.2.1
  · exact (with_hex_colors_atomic (ColorfulVersion.new "testapp" "1.2.3" "Test Author")
      (strBytes "#F00") (strBytes "zzz") (strBytes "#00F") (strBytes "#FF0")).2
      (Or.inr (Or.inl (by decide)))

/-- C5: `with_hex_colors` runs the hex parser on its four arguments in
    the order name_fg, name_bg, version, author; it stops at the first
    argument whose parse does not succeed and returns exactly that
    outcome, with no aggregation, and on success the four stored colours
    are the four parsed triples in that correspondence. -/
theorem with_hex_colors_first_error (cv : ColorfulVersion) (a1 a2 a3 a4 : List Nat) :
    cv.with_hex_colors a1 a2 a3 a4 =
      match parse_hex a1 with
      | .panicked => .panicked
      | .err e => .err e
      | .ok c1 =>
        match parse_hex a2 with
        | .panicked => .panicked
        | .err e => .err e
        | .ok c2 =>
          match parse_hex a3 with
          | .panicked => .panicked
          | .err e => .err e
          | .ok c3 =>
            match parse_hex a4 with
            | .panicked => .panicked
            | .err e => .err e
            | .ok c4 =>
              .ok { package_name := cv.package_name, version := cv.version,
                    author := cv.author,
                    colors := { name_fg := c1, name_bg := c2,
                                version_color := c3, author_color := c4 } } :=
  with_hex_colors_eq cv a1 a2 a3 a4

end ClapVersionFlag

namespace ClapVersionFlag

/-- C6: hex round trip — for every byte triple (r,g,b), rendering it as
    a 6-digit hexadecimal string (either letter case) and parsing the
    result with `parse_hex` returns exactly Ok (r,g,b). -/
theorem parse_hex_round_trip (upper : Bool) (r g b : Nat)
    (hr : r ≤ 255) (hg : g ≤ 255) (hb : b ≤ 255) :
    parse_hex (toHex6 upper r g b) = .ok (r, g, b) := by
  have h1 := hexDigit?_hexDigitByte upper (show r / 16 < 16 by omega)
  have h2 := hexDigit?_hexDigitByte upper (show r % 16 < 16 by omega)
  have h3 := hexDigit?_hexDigitByte upper (show g / 16 < 16 by omega)
  have h4 := hexDigit?_hexDigitByte upper (show g % 16 < 16 by omega)
  have h5 := hexDigit?_hexDigitByte upper (show b / 16 < 16 by omega)
  have h6 := hexDigit?_hexDigitByte upper (show b % 16 < 16 by omega)
  have hne : hexDigitByte upper (r / 16) ≠ 35 := by
    have := (hexDigit?_bounds h1).1
    omega
  unfold toHex6
  rw [parse_hex_no_hash _ hne,
    parse_six_eval _ _ _ _ _ _ (Or.inl (hexDigit?_bounds h3).2.1)
      (Or.inl (hexDigit?_bounds h5).2.1)]
  simp only [fromStrRadix16_two h1 h2, fromStrRadix16_two h3 h4, fromStrRadix16_two h5 h6]
  have e1 : 16 * (r / 16) + r % 16 = r := by omega
  have e2 : 16 * (g / 16) + g % 16 = g := by omega
  have e3 : 16 * (b / 16) + b % 16 = b := by omega
  rw [e1, e2, e3]

/-- C6 witness: the round trip at the concrete triple (170,187,204). -/
theorem parse_hex_round_trip_witness :
    parse_hex (toHex6 false 170 187 204) = .ok (170, 187, 204) :=
  parse_hex_round_trip false 170 187 204 (by omega) (by omega) (by omega)

/-- C7: every 3-byte input accepted by `parse_hex` parses to the same
    triple as the 6-byte input obtained by duplicating each byte, and
    the concrete inputs "#F00", "#f00" and "FF0000" all parse to
    (255,0,0). -/
theorem parse_hex_three_digit_expansion :
    (∀ b0 b1 b2 t, parse_hex [b0, b1, b2] = .ok t →
      parse_hex [b0, b0, b1, b1, b2, b2] = .ok t) ∧
    parse_hex (strBytes "#F00") = .ok (255, 0, 0) ∧
    parse_hex (strBytes "#f00") = .ok (255, 0, 0) ∧
    parse_hex (strBytes "FF0000") = .ok (255, 0, 0) := by
  refine ⟨?_, by decide, by decide, by decide⟩
  intro b0 b1 b2 t h
  by_cases h0 : b0 = 35
  · exfalso
    subst h0
    rw [parse_hex_cons_35] at h
    unfold parse_hex at h
    have hlen : (([b1, b2] : List Nat).dropWhile (fun b => b = 35)).length ≤ 2 :=
      (List.dropWhile_sublist (fun b => decide (b = 35))).length_le
    rw [parseHexStripped_other _ (by simp at hlen ⊢; omega) (by simp at hlen ⊢; omega)] at h
    exact RustResult.noConfusion h
  · rw [parse_hex_no_hash _ h0, parse_three_ok_iff] at h
    obtain ⟨d0, d1, d2, h0', h1', h2', rfl⟩ := h
    rw [parse_hex_no_hash _ h0,
      parse_six_eval _ _ _ _ _ _ (Or.inl (hexDigit?_bounds h1').2.1)
        (Or.inl (hexDigit?_bounds h2').2.1)]
    simp only [fromStrRadix16_two h0' h0', fromStrRadix16_two h1' h1',
      fromStrRadix16_two h2' h2']
    have e0 : 16 * d0 + d0 = 17 * d0 := by omega
    have e1 : 16 * d1 + d1 = 17 * d1 := by omega
    have e2 : 16 * d2 + d2 = 17 * d2 := by omega
    rw [e0, e1, e2]

/-- C7 witness: "F00" (bytes [70,48,48]) is accepted, and its duplicated
    expansion [70,70,48,48,48,48] parses to the same triple. -/
theorem parse_hex_three_digit_expansion_witness :
    parse_hex [70, 70, 48, 48, 48, 48] = .ok (255, 0, 0) :=
  parse_hex_three_digit_expansion.1 70 48 48 (255, 0, 0) (by decide)

end ClapVersionFlag

namespace ClapVersionFlag

/-- C8 counterexample: the claim states the plain rendering never
    contains the escape character for every package name; but when the
    name itself contains ESC (U+001B), the rendered plain string does
    contain it. -/
theorem as_plain_string_esc_counterexample :
    Char.ofNat 27 ∈ ((ColorfulVersion.new "\x1b" "1.2.3" "A").as_plain_string).data := by
  decide

/-- C8 (amended): both `as_plain_string` and the Display rendering equal
    exactly "{name} v{version} by {author}", the formatter itself adds
    no escape character — the plain string is ESC-free whenever the
    three input strings are — and the concrete banner
    ("testapp","1.2.3","Test Author") renders as
    "testapp v1.2.3 by Test Author". -/
theorem plain_string_format (n v a : String) :
    (ColorfulVersion.new n v a).as_plain_string = n ++ " v" ++ v ++ " by " ++ a ∧
    (ColorfulVersion.new n v a).displayString = n ++ " v" ++ v ++ " by " ++ a ∧
    (Char.ofNat 27 ∉ n.data → Char.ofNat 27 ∉ v.data → Char.ofNat 27 ∉ a.data →
      Char.ofNat 27 ∉ ((ColorfulVersion.new n v a).as_plain_string).data) ∧
    (ColorfulVersion.new "testapp" "1.2.3" "Test Author").as_plain_string =
      "testapp v1.2.3 by Test Author" := by
  refine ⟨rfl, rfl, ?_, by decide⟩
  intro hn hv ha hmem
  have hdata : ((ColorfulVersion.new n v a).as_plain_string).data
      = n.data ++ (" v").data ++ v.data ++ (" by ").data ++ a.data := by
    simp [ColorfulVersion.as_plain_string, ColorfulVersion.new, String.data_append]
  rw [hdata] at hmem
  simp only [List.mem_append] at hmem
  rcases hmem with ((((h | h) | h) | h) | h)
  · exact hn h
  · exact absurd h (by decide)
  · exact hv h
  · exact absurd h (by decide)
  · exact ha h

/-- C8 witness: for the escape-free inputs of the concrete test case the
    plain rendering contains no escape character. -/
theorem plain_string_format_witness :
    Char.ofNat 27 ∉ ((ColorfulVersion.new "testapp" "1.2.3" "Test Author").as_plain_string).data :=
  (plain_string_format "testapp" "1.2.3" "Test Author").2.2.1
    (by decide) (by decide) (by decide)

/-- C9: `new` always succeeds, stores the three constructor arguments
    unchanged (the accessors are the field projections), and populates
    the colour set with the fixed defaults name_fg=(255,255,255),
    name_bg=(170,0,255), version_color=(255,255,0),
    author_color=(0,255,255). -/
theorem new_defaults_and_accessors (n v a : String) :
    (ColorfulVersion.new n v a).package_name = n ∧
    (ColorfulVersion.new n v a).version = v ∧
    (ColorfulVersion.new n v a).author = a ∧
    (ColorfulVersion.new n v a).colors.name_fg = (255, 255, 255) ∧
    (ColorfulVersion.new n v a).colors.name_bg = (170, 0, 255) ∧
    (ColorfulVersion.new n v a).colors.version_color = (255, 255, 0) ∧
    (ColorfulVersion.new n v a).colors.author_color = (0, 255, 255) :=
  ⟨rfl, rfl, rfl, rfl, rfl, rfl, rfl⟩

/-- C10: for every banner (and either colourization decision of the
    terminal) the colourized string is at least as long as the plain
    string, and is non-empty whenever the plain string is non-empty. -/
theorem to_colored_string_not_shorter (cv : ColorfulVersion) (colorize : Bool) :
    cv.as_plain_string.length ≤ (cv.to_colored_string colorize).length ∧
    (cv.as_plain_string ≠ "" → cv.to_colored_string colorize ≠ "") := by
  have key : cv.as_plain_string.length ≤ (cv.to_colored_string colorize).length := by
    have w1 := truecolorFgBg_length colorize cv.colors.name_fg cv.colors.name_bg cv.package_name
    have w2 := truecolorFg_length colorize cv.colors.version_color (" v" ++ cv.version)
    have w3 := truecolorFg_length colorize cv.colors.author_color (" by " ++ cv.author)
    unfold ColorfulVersion.as_plain_string ColorfulVersion.to_colored_string
    simp only [String.length_append] at w1 w2 w3 ⊢
    omega
  refine ⟨key, fun hne hcol => hne ?_⟩
  have h0 : (cv.to_colored_string colorize).length = 0 := by
    rw [hcol]
    rfl
  exact string_length_zero (by omega)

/-- C10 witness: the colourized rendering of the concrete test banner is
    non-empty. -/
theorem to_colored_string_not_shorter_witness :
    (ColorfulVersion.new "testapp" "1.2.3" "Test Author").to_colored_string true ≠ "" :=
  (to_colored_string_not_shorter (ColorfulVersion.new "testapp" "1.2.3" "Test Author") true).2
    (by decide)

end ClapVersionFlag
